import Mathlib

set_option maxRecDepth 4000

/-!
Verification development for the begonia-proxy repository (a small forwarding
proxy for Kubernetes clusters).  The Rust sources `src/main.rs`, `src/resolve.rs`
and `src/k8s.rs` are shallowly embedded below: pure logic becomes Lean
functions, fallible code returns `Except`, strings are `List Char`, raw socket
bytes are `List Nat` (each byte `< 256`), and the external collaborators
(the Kubernetes API fetch and the DNS lookup) are passed in as function
parameters.  Machine integers are modelled as `Nat`/`Int` with explicit bounds
(`< 65536` for `u16`, `< 256` for `u8`, `Int` for the Kubernetes `i32` ports).
-/

/-! ## IP addresses

Model of `std::net::IpAddr` together with `IpAddr::from_str` (used by both
`resolve.rs` and `k8s.rs` via `IpAddr::from_str(&s)`).  The parser mirrors the
Rust standard library: it first tries the dotted-quad IPv4 form (decimal
octets, no leading zeros, value at most 255), then the RFC-4291 IPv6 forms
(hex groups of at most 4 digits, at most one `::`, optional embedded IPv4 in
the final position). -/

inductive IpAddr : Type where
  | v4 (a b c d : Nat) : IpAddr
  | v6 (groups : List Nat) : IpAddr
deriving DecidableEq, Repr

/-- A socket address: an IP address paired with a port. -/
abbrev SockAddr := IpAddr × Nat

/-- Split a character list on `'.'` (like `str::split('.')`, which yields
empty segments for consecutive or leading/trailing separators). -/
def splitOnDot : List Char → List (List Char)
  | [] => [[]]
  | '.' :: rest => [] :: splitOnDot rest
  | c :: rest =>
    match splitOnDot rest with
    | [] => [[c]]
    | s :: ss => (c :: s) :: ss

/-- Split a character list on `':'`. -/
def splitOnColon : List Char → List (List Char)
  | [] => [[]]
  | ':' :: rest => [] :: splitOnColon rest
  | c :: rest =>
    match splitOnColon rest with
    | [] => [[c]]
    | s :: ss => (c :: s) :: ss

/-- Decimal value of a digit string (the caller checks the digits). -/
def digitsVal (l : List Char) : Nat :=
  l.foldl (fun a c => a * 10 + (c.toNat - 48)) 0

/-- Is the character an ASCII decimal digit. -/
def isDigitCh (c : Char) : Bool :=
  decide (48 ≤ c.toNat) && decide (c.toNat ≤ 57)

/-- One IPv4 octet, per the Rust parser: decimal digits only, no leading
zero, at most 3 digits, value at most 255. -/
def parseOctet (s : List Char) : Option Nat :=
  if s.isEmpty then none
  else if ¬ s.all isDigitCh then none
  else if 1 < s.length ∧ s.headD '0' = '0' then none
  else if 3 < s.length then none
  else if digitsVal s ≤ 255 then some (digitsVal s) else none

/-- `Ipv4Addr::from_str`: four octets separated by dots. -/
def ipv4FromChars (s : List Char) : Option IpAddr :=
  match splitOnDot s with
  | [a, b, c, d] =>
    match parseOctet a, parseOctet b, parseOctet c, parseOctet d with
    | some x, some y, some z, some w => some (.v4 x y z w)
    | _, _, _, _ => none
  | _ => none

/-- Is the character an ASCII hex digit. -/
def isHexDigitCh (c : Char) : Bool :=
  isDigitCh c || (decide (97 ≤ c.toNat) && decide (c.toNat ≤ 102))
    || (decide (65 ≤ c.toNat) && decide (c.toNat ≤ 70))

/-- Value of one hex digit. -/
def hexDigitVal (c : Char) : Nat :=
  if c.toNat ≤ 57 then c.toNat - 48
  else if 97 ≤ c.toNat then c.toNat - 87
  else c.toNat - 55

/-- Hex value of a hex-digit string. -/
def hexVal (l : List Char) : Nat :=
  l.foldl (fun a c => a * 16 + hexDigitVal c) 0

/-- One IPv6 group: 1 to 4 hex digits. -/
def parseHexGroup (s : List Char) : Option Nat :=
  if s.isEmpty then none
  else if ¬ s.all isHexDigitCh then none
  else if 4 < s.length then none
  else some (hexVal s)

/-- Groups contributed by one colon-separated IPv6 part.  A part containing a
dot is an embedded IPv4 address, allowed only in the final position, and
contributes two 16-bit groups; otherwise the part is a single hex group. -/
def partToGroups (isLast : Bool) (s : List Char) : Option (List Nat) :=
  if s.contains '.' then
    if isLast then
      match ipv4FromChars s with
      | some (.v4 a b c d) => some [a * 256 + b, c * 256 + d]
      | _ => none
    else none
  else (parseHexGroup s).map (fun v => [v])

/-- Groups of a run of parts where only the last may embed an IPv4. -/
def groupsOfParts : List (List Char) → Option (List Nat)
  | [] => some []
  | [s] => partToGroups true s
  | s :: rest =>
    match partToGroups false s, groupsOfParts rest with
    | some g, some gs => some (g ++ gs)
    | _, _ => none

/-- Map with an `Option`-valued function, failing if any element fails
(mirrors collecting a Rust iterator of `Result` into `Result<Vec<_>>`). -/
def mapMOption (f : α → Option β) : List α → Option (List β)
  | [] => some []
  | a :: rest =>
    match f a with
    | none => none
    | some b => (mapMOption f rest).map (fun bs => b :: bs)

/-- Split at the first occurrence of a double colon, when present. -/
def splitAtDoubleColon : List Char → Option (List Char × List Char)
  | [] => none
  | ':' :: ':' :: rest => some ([], rest)
  | c :: rest => (splitAtDoubleColon rest).map (fun p => (c :: p.1, p.2))

/-- `Ipv6Addr::from_str`: either eight groups with no `::`, or a `::` with
at most seven groups around it (the gap is filled with zero groups). -/
def ipv6FromChars (s : List Char) : Option IpAddr :=
  match splitAtDoubleColon s with
  | none =>
    let parts := splitOnColon s
    if parts.contains [] then none
    else
      match groupsOfParts parts with
      | some gs => if gs.length = 8 then some (.v6 gs) else none
      | none => none
  | some (l, r) =>
    let lparts := if l.isEmpty then [] else splitOnColon l
    let rparts := if r.isEmpty then [] else splitOnColon r
    if lparts.contains [] ∨ rparts.contains [] then none
    else
      match mapMOption parseHexGroup lparts, groupsOfParts rparts with
      | some lg, some rg =>
        if lg.length + rg.length ≤ 7 then
          some (.v6 (lg ++ List.replicate (8 - lg.length - rg.length) 0 ++ rg))
        else none
      | _, _ => none

/-- Model of `std::net::IpAddr::from_str`: try IPv4, then IPv6. -/
def ipFromStr (s : List Char) : Option IpAddr :=
  match ipv4FromChars s with
  | some ip => some ip
  | none => ipv6FromChars s

/-! ## Errors

One error type covers the `anyhow::Error` values produced across the three
source files, plus the panic of the `unimplemented!` arm of `resolve`
(modelled as the distinguished failure `notImplemented`, since a panic also
never falls through to the remaining code). -/

deriving instance DecidableEq for Except

/-- Errors of the embedded httparse request parser. -/
inductive HPErr : Type where
  | token
  | newline
  | version
  | headerName
  | headerValue
  | tooManyHeaders
deriving DecidableEq, Repr

/-- Error values of the embedded program. -/
inductive Err : Type where
  | unexpectedEof
  | httparse (e : HPErr)
  | invalidMethod (m : Option (List Char))
  | portRequired
  | emptyPort
  | portParse (s : List Char)
  | invalidSocksCommand (b : Nat)
  | invalidUtf8 (bytes : List Nat)
  | unrecognised (bytes : List Nat)
  | noEndpoints
  | parseIp (s : List Char)
  | portNarrow
  | notImplemented (command : List Char)
  | external (msg : List Char)
deriving DecidableEq, Repr

/-! ## Kubernetes data model

The fields of `k8s_openapi::api::core::v1::{Endpoints, EndpointSubset,
EndpointPort, EndpointAddress}` that the program reads.  All of them are
optional in the Kubernetes schema; ports are `i32`. -/

structure EndpointAddress : Type where
  ip : List Char
deriving DecidableEq, Repr

structure EndpointPort : Type where
  port : Int
deriving DecidableEq, Repr

structure EndpointSubset : Type where
  addresses : Option (List EndpointAddress)
  ports : Option (List EndpointPort)
deriving DecidableEq, Repr

structure Endpoints : Type where
  subsets : Option (List EndpointSubset)
deriving DecidableEq, Repr

/-! ## `k8s.rs`: bootstrap DNS discovery -/

/-- `k8s.rs` `has_port`: does any `EndpointPort` carry the given port. -/
def has_port (port : Int) (ports : List EndpointPort) : Bool :=
  ports.any (fun ep => ep.port = port)

/-- Does the subset list port 53 (the filter inside `find_dns`). -/
def subsetHasPort53 (s : EndpointSubset) : Bool :=
  match s.ports with
  | some ports => has_port 53 ports
  | none => false

/-- The address literals of the subsets exposing port 53, in arrival order
(the `filter`/`flat_map` chain of `find_dns`). -/
def dnsAddrStrings (ss : List EndpointSubset) : List (List Char) :=
  (ss.filter subsetHasPort53).flatMap (fun s =>
    match s.addresses with
    | some addresses => addresses.map EndpointAddress.ip
    | none => [])

/-- Parse every literal, short-circuiting on the first failure with the
`parsing {literal}` context (the final `map`/`collect` of `find_dns`). -/
def parseIps : List (List Char) → Except Err (List IpAddr)
  | [] => .ok []
  | s :: rest =>
    match ipFromStr s with
    | none => .error (.parseIp s)
    | some ip =>
      match parseIps rest with
      | .error e => .error e
      | .ok l => .ok (ip :: l)

/-- `k8s.rs` `find_dns`, applied to the fetched `kube-dns` `Endpoints`
object: a missing `subsets` field is an error; otherwise collect and parse
the addresses of every subset exposing port 53.  No deduplication occurs. -/
def find_dns (endpoints : Endpoints) : Except Err (List IpAddr) :=
  match endpoints.subsets with
  | none => .error .noEndpoints
  | some ss => parseIps (dnsAddrStrings ss)

/-! ## `resolve.rs`: the Endpoints resolver -/

/-- Subset ports with `unwrap_or_default`. -/
def subsetPorts (s : EndpointSubset) : List EndpointPort :=
  s.ports.getD []

/-- Subset addresses with `unwrap_or_default`. -/
def subsetAddrs (s : EndpointSubset) : List EndpointAddress :=
  s.addresses.getD []

/-- Insert into a duplicate-free list, keeping first-occurrence order.
Models `HashSet::insert`: only the membership, emptiness and cardinality of
the set are consumed downstream, all order-independent. -/
def insertDistinct (x : Int) (xs : List Int) : List Int :=
  if x ∈ xs then xs else xs ++ [x]

/-- Fold one subset's ports into the distinct-port accumulator. -/
def insertSubsetPorts (acc : List Int) (s : EndpointSubset) : List Int :=
  (subsetPorts s).foldl (fun a p => insertDistinct p.port a) acc

/-- The distinct port values across all subsets (the contents of the `ports`
hash set after the aggregation loop of `resolve`). -/
def distinctPortsAux (acc : List Int) : List EndpointSubset → List Int
  | [] => acc
  | s :: rest => distinctPortsAux (insertSubsetPorts acc s) rest

/-- Distinct ports of an `Endpoints` object (`subsets.unwrap_or_default()`). -/
def distinctPorts (eps : Endpoints) : List Int :=
  distinctPortsAux [] (eps.subsets.getD [])

/-- The address literals of all subsets, in subset-then-address order. -/
def addrStringsOf (ss : List EndpointSubset) : List (List Char) :=
  ss.flatMap (fun s => (subsetAddrs s).map EndpointAddress.ip)

/-- Address literals of an `Endpoints` object. -/
def addrStrings (eps : Endpoints) : List (List Char) :=
  addrStringsOf (eps.subsets.getD [])

/-- Parse one subset's addresses, with the `parsing {ip}` error context. -/
def parseAddrs : List EndpointAddress → Except Err (List IpAddr)
  | [] => .ok []
  | a :: rest =>
    match ipFromStr a.ip with
    | none => .error (.parseIp a.ip)
    | some ip =>
      match parseAddrs rest with
      | .error e => .error e
      | .ok l => .ok (ip :: l)

/-- The aggregation loop of the `endpoints` arm of `resolve`: per subset,
first insert the ports into the distinct set, then parse the addresses
(aborting on the first parse failure), accumulating IPs in subset-then-address
order. -/
def collectSubsets (acc : List Int) : List EndpointSubset → Except Err (List Int × List IpAddr)
  | [] => .ok (acc, [])
  | s :: rest =>
    let acc' := insertSubsetPorts acc s
    match parseAddrs (subsetAddrs s) with
    | .error e => .error e
    | .ok ips =>
      match collectSubsets acc' rest with
      | .error e => .error e
      | .ok (ports, ipsRest) => .ok (ports, ips ++ ipsRest)

/-- `u16::try_from` on an `i32` port value. -/
def u16TryFromInt (p : Int) : Except Err Nat :=
  if 0 ≤ p ∧ p < 65536 then .ok p.toNat else .error .portNarrow

/-- The port-selection policy of `resolve`: a single distinct port is
narrowed to `u16` and used; otherwise the caller-supplied port is used. -/
def choosePort (ports : List Int) (specifiedPort : Nat) : Except Err Nat :=
  if ports.length = 1 then u16TryFromInt (ports.getD 0 0) else .ok specifiedPort

/-- The `endpoints` arm of `resolve`, applied to the fetched `Endpoints`
object: aggregate ports and addresses, return `[]` when either is empty,
otherwise pair every address with the chosen port. -/
def endpointsResolve (eps : Endpoints) (specifiedPort : Nat) : Except Err (List SockAddr) :=
  match collectSubsets [] (eps.subsets.getD []) with
  | .error e => .error e
  | .ok (ports, ips) =>
    if ports.isEmpty || ips.isEmpty then .ok []
    else
      match choosePort ports specifiedPort with
      | .error e => .error e
      | .ok port => .ok (ips.map (fun ip => (ip, port)))

/-! ## `resolve.rs`: hostname pattern match and dispatch

The router matches the hostname against the anchored regex

`^([a-zA-Z0-9-]{1,63})(?:\.([a-zA-Z0-9-]{1,63}))?\.(endpoints|pod|pod-by-name)\.local\.?$`

Labels never contain dots, so a matching string is exactly a dot-separated
sequence `label [label] kind "local"` with at most one trailing dot, and a
given string decomposes in at most one way (the two alternatives have three
respectively four dot-separated segments).  The matcher below splits on dots,
strips one trailing empty segment (the optional final dot) and recognises the
two shapes, returning the three captures. -/

/-- A character of the `[a-zA-Z0-9-]` class. -/
def isLabelChar (c : Char) : Bool :=
  (decide (97 ≤ c.toNat) && decide (c.toNat ≤ 122))
    || (decide (65 ≤ c.toNat) && decide (c.toNat ≤ 90))
    || isDigitCh c || decide (c = '-')

/-- A label: 1 to 63 characters of the label class. -/
def isLabel (s : List Char) : Bool :=
  decide (1 ≤ s.length) && decide (s.length ≤ 63) && s.all isLabelChar

/-- The third capture group's alternatives. -/
def isKind (s : List Char) : Bool :=
  decide (s = "endpoints".toList) || decide (s = "pod".toList)
    || decide (s = "pod-by-name".toList)

/-- The regex match of `resolve`: on success, the captures
`(name, namespace?, kind)`. -/
def matchVirtualTld (host : List Char) : Option (List Char × Option (List Char) × List Char) :=
  let segs0 := splitOnDot host
  let segs := if segs0.getLast? = some [] then segs0.dropLast else segs0
  match segs with
  | [l1, k, loc] =>
    if isLabel l1 && isKind k && decide (loc = "local".toList) then some (l1, none, k)
    else none
  | [l1, l2, k, loc] =>
    if isLabel l1 && isLabel l2 && isKind k && decide (loc = "local".toList) then
      some (l1, some l2, k)
    else none
  | _ => none

/-- The `ResolveCtx` configuration snapshot.  The `kube::Client` handle is
omitted: Kubernetes access is passed to `resolve` as a fetch function. -/
structure ResolveCtx : Type where
  cluster_local : List Char
  default_namespace : List Char
  dns_servers : List IpAddr
deriving DecidableEq, Repr

/-- `resolve.rs` `resolve`.  The two external collaborators are parameters:
`fetch ns name` stands for `Api::<Endpoints>::namespaced(client, ns).get(name)`
and `dns hostname` for `resolve_against_kube_dns`'s lookup result.  The
`unimplemented!` panic of the non-`endpoints` arms is modelled as the
`notImplemented` failure. -/
def resolve (ctx : ResolveCtx) (fetch : List Char → List Char → Except Err Endpoints)
    (dns : List Char → Except Err (List IpAddr))
    (hostname : List Char) (specified_port : Nat) : Except Err (List SockAddr) :=
  match matchVirtualTld hostname with
  | some (name, nsOpt, kind) =>
    let ns := nsOpt.getD ctx.default_namespace
    if kind = "endpoints".toList then
      match fetch ns name with
      | .error e => .error e
      | .ok endpoints => endpointsResolve endpoints specified_port
    else .error (.notImplemented kind)
  | none =>
    match dns hostname with
    | .error e => .error e
    | .ok ips => .ok (ips.map (fun ip => (ip, specified_port)))

/-! ## `resolve.rs`: the stub-resolver configuration

`resolve_against_kube_dns` builds a `ResolverConfig` by looping over
`ctx.dns_servers`, adding per server one UDP nameserver on port 53 and the
three search names.  `Name::from_str` is modelled as the identity on the
formatted strings (it accepts every name this program formats). -/

/-- The transport protocol of a nameserver entry. -/
inductive Protocol : Type where
  | udp
  | tcp
deriving DecidableEq, Repr

/-- The fields of `hickory` `NameServerConfig` that the program sets to
non-default values (`tls_dns_name`, `bind_addr` and `http_endpoint` are
always `None`). -/
structure NameServerConfig : Type where
  protocol : Protocol
  socket_addr : SockAddr
  trust_negative_responses : Bool
deriving DecidableEq, Repr

/-- The parts of `hickory` `ResolverConfig` that the program writes. -/
structure ResolverConfig : Type where
  name_servers : List NameServerConfig
  search : List (List Char)
deriving DecidableEq, Repr

/-- The first search name: `{default_namespace}.svc.{cluster_local}`. -/
def searchName1 (ctx : ResolveCtx) : List Char :=
  ctx.default_namespace ++ ".svc.".toList ++ ctx.cluster_local

/-- The second search name: `svc.{cluster_local}`. -/
def searchName2 (ctx : ResolveCtx) : List Char :=
  "svc.".toList ++ ctx.cluster_local

/-- The third search name: `{cluster_local}`. -/
def searchName3 (ctx : ResolveCtx) : List Char :=
  ctx.cluster_local

/-- One iteration of the configuration loop: `add_name_server` then three
`add_search` calls (both push to the back of their lists). -/
def addServer (ctx : ResolveCtx) (config : ResolverConfig) (ip : IpAddr) : ResolverConfig :=
  { name_servers := config.name_servers ++ [⟨.udp, (ip, 53), true⟩],
    search := config.search ++ [searchName1 ctx, searchName2 ctx, searchName3 ctx] }

/-- The configuration `resolve_against_kube_dns` hands to the stub resolver. -/
def kubeDnsResolverConfig (ctx : ResolveCtx) : ResolverConfig :=
  ctx.dns_servers.foldl (addServer ctx) ⟨[], []⟩

/-! ## `main.rs`: the wire parser

`read_initialisation` reads from the socket into a fixed 4096-byte,
zero-initialised buffer and dispatches on the first byte.  The incoming
socket data is modelled as a list of chunks (the successive values returned
by `socket.read`); an empty chunk is end-of-file.  Bytes are `Nat` values
below 256.  The writes the parser makes on the SOCKS bad-command path are
not tracked here (no claim depends on them); the worker's writes are
modelled separately in `workerDispatch`. -/

/-- The `ConnectType` produced by the wire parser (`main.rs`). -/
inductive ConnectType : Type where
  | Http (hostname : List Char) (port : Nat)
  | Socks4Ip (ip : IpAddr) (port : Nat)
  | Socks4Host (hostname : List Char) (port : Nat)
  | InvalidHttpGet (path : List Char)
deriving DecidableEq, Repr

/-- ASCII bytes of a string literal. -/
def asciiBytes (s : String) : List Nat :=
  s.toList.map Char.toNat

/-- Model of `String::from_utf8` on a byte list: standard UTF-8 validation
(continuation bytes, overlong forms, surrogates and values beyond
`0x10FFFF` rejected), decoding to characters. -/
def utf8Decode : List Nat → Option (List Char)
  | [] => some []
  | b :: rest =>
    if b < 128 then (utf8Decode rest).map (fun cs => Char.ofNat b :: cs)
    else if b < 192 then none
    else if b < 224 then
      match rest with
      | c1 :: rest2 =>
        if 128 ≤ c1 ∧ c1 < 192 then
          let cp := (b - 192) * 64 + (c1 - 128)
          if 128 ≤ cp then (utf8Decode rest2).map (fun cs => Char.ofNat cp :: cs) else none
        else none
      | [] => none
    else if b < 240 then
      match rest with
      | c1 :: c2 :: rest2 =>
        if (128 ≤ c1 ∧ c1 < 192) ∧ (128 ≤ c2 ∧ c2 < 192) then
          let cp := (b - 224) * 4096 + (c1 - 128) * 64 + (c2 - 128)
          if 2048 ≤ cp ∧ ¬ (55296 ≤ cp ∧ cp ≤ 57343) then
            (utf8Decode rest2).map (fun cs => Char.ofNat cp :: cs)
          else none
        else none
      | _ => none
    else if b < 248 then
      match rest with
      | c1 :: c2 :: c3 :: rest2 =>
        if (128 ≤ c1 ∧ c1 < 192) ∧ (128 ≤ c2 ∧ c2 < 192) ∧ (128 ≤ c3 ∧ c3 < 192) then
          let cp := (b - 240) * 262144 + (c1 - 128) * 4096 + (c2 - 128) * 64 + (c3 - 128)
          if 65536 ≤ cp ∧ cp ≤ 1114111 then
            (utf8Decode rest2).map (fun cs => Char.ofNat cp :: cs)
          else none
        else none
      | _ => none
    else none

/-! ### The httparse dependency

Model of `httparse::Request::parse` as `read_initialisation` uses it,
restricted to ASCII input: a method token, a space, a request target of
printable ASCII, a space, `HTTP/1.` and one digit, a newline, then up to 16
headers and the empty line.  `\r\n` and bare `\n` both serve as newlines and
empty lines before the method are skipped, as in httparse.  An invalid byte
is an error, and running off the end of the input is a partial parse. -/

/-- Intermediate outcome of one parsing stage. -/
inductive Step (α : Type) : Type where
  | inc
  | er (e : HPErr)
  | done (a : α) (rest : List Nat)
deriving DecidableEq, Repr

/-- Outcome of a full request parse. -/
inductive HPResult : Type where
  | incomplete
  | failed (e : HPErr)
  | complete (method : List Char) (path : List Char)
deriving DecidableEq, Repr

/-- httparse token bytes (RFC 7230 tchar). -/
def isTokenByte (b : Nat) : Bool :=
  (decide (48 ≤ b) && decide (b ≤ 57)) || (decide (97 ≤ b) && decide (b ≤ 122))
    || (decide (65 ≤ b) && decide (b ≤ 90))
    || [33, 35, 36, 37, 38, 39, 42, 43, 45, 46, 94, 95, 96, 124, 126].contains b

/-- Request-target bytes: printable ASCII. -/
def isUriByte (b : Nat) : Bool :=
  decide (33 ≤ b) && decide (b ≤ 126)

/-- Header-value bytes: horizontal tab, printable ASCII and obs-text. -/
def isHeaderValueByte (b : Nat) : Bool :=
  decide (b = 9) || (decide (32 ≤ b) && decide (b ≤ 255) && decide (b ≠ 127))

/-- Skip empty lines before the request line. -/
def skipEmptyLines : List Nat → Step Unit
  | 13 :: 10 :: rest => skipEmptyLines rest
  | [13] => .inc
  | 13 :: _ :: _ => .er .newline
  | 10 :: rest => skipEmptyLines rest
  | rest => .done () rest

/-- Collect bytes satisfying `p` up to the stop byte (space or colon);
an empty run or a foreign byte is the error `e`. -/
def takeUntilStop (p : Nat → Bool) (stop : Nat) (e : HPErr) (acc : List Nat) :
    List Nat → Step (List Nat)
  | [] => .inc
  | b :: rest =>
    if b = stop then
      if acc.isEmpty then .er e else .done acc.reverse rest
    else if p b then takeUntilStop p stop e (b :: acc) rest
    else .er e

/-- Match the literal `HTTP/1.` followed by one digit. -/
def matchVersion : List Nat → List Nat → Step Nat
  | [], d :: rest => if 48 ≤ d ∧ d ≤ 57 then .done (d - 48) rest else .er .version
  | [], [] => .inc
  | _ :: _, [] => .inc
  | e :: es, b :: rest => if b = e then matchVersion es rest else .er .version

/-- A `\r\n` or bare `\n` newline. -/
def expectNewline : List Nat → Step Unit
  | [] => .inc
  | [13] => .inc
  | 13 :: 10 :: rest => .done () rest
  | 13 :: _ :: _ => .er .newline
  | 10 :: rest => .done () rest
  | _ => .er .newline

/-- The tail of a header value, after the leading whitespace. -/
def headerValueTail : List Nat → Step Unit
  | [] => .inc
  | [13] => .inc
  | 13 :: 10 :: rest => .done () rest
  | 13 :: _ :: _ => .er .headerValue
  | 10 :: rest => .done () rest
  | b :: rest => if isHeaderValueByte b then headerValueTail rest else .er .headerValue

/-- One header value: leading spaces and tabs skipped, value bytes up to the
newline. -/
def headerValue : List Nat → Step Unit
  | 32 :: rest => headerValue rest
  | 9 :: rest => headerValue rest
  | rest => headerValueTail rest

/-- The header block: up to `n` headers, each a token name, a colon, a value
and a newline; an empty line ends the block.  The fuel argument only bounds
the recursion; with the 16-header table at most 17 iterations can occur, so
the instantiation below never runs out. -/
def parseHeaders : Nat → Nat → List Nat → Step Unit
  | 0, _, _ => .inc
  | fuel + 1, n, bytes =>
    match bytes with
    | [] => .inc
    | [13] => .inc
    | 13 :: 10 :: rest => .done () rest
    | 10 :: rest => .done () rest
    | _ =>
      if n = 0 then .er .tooManyHeaders
      else
        match takeUntilStop isTokenByte 58 .headerName [] bytes with
        | .inc => .inc
        | .er e => .er e
        | .done _ rest =>
          match headerValue rest with
          | .inc => .inc
          | .er e => .er e
          | .done _ rest2 => parseHeaders fuel (n - 1) rest2

/-- `httparse::Request::parse` with a 16-header table, returning the method
and path on a complete parse. -/
def parseRequest (bytes : List Nat) : HPResult :=
  match skipEmptyLines bytes with
  | .inc => .incomplete
  | .er e => .failed e
  | .done _ r1 =>
    match takeUntilStop isTokenByte 32 .token [] r1 with
    | .inc => .incomplete
    | .er e => .failed e
    | .done method r2 =>
      match takeUntilStop isUriByte 32 .token [] r2 with
      | .inc => .incomplete
      | .er e => .failed e
      | .done path r3 =>
        match matchVersion [72, 84, 84, 80, 47, 49, 46] r3 with
        | .inc => .incomplete
        | .er e => .failed e
        | .done _ r4 =>
          match expectNewline r4 with
          | .inc => .incomplete
          | .er e => .failed e
          | .done _ r5 =>
            match parseHeaders 18 16 r5 with
            | .inc => .incomplete
            | .er e => .failed e
            | .done _ _ => .complete (method.map Char.ofNat) (path.map Char.ofNat)

/-! ### CONNECT target splitting and SOCKS decoding -/

/-- Strip one leading `+` sign (`u16::from_str` accepts it). -/
def stripPlus : List Char → List Char
  | '+' :: rest => rest
  | s => s

/-- Model of `u16::from_str`: an optional `+` sign, then decimal digits
only, value below 2^16. -/
def u16FromStr (s : List Char) : Option Nat :=
  let ds := stripPlus s
  if ds.isEmpty then none
  else if ds.all isDigitCh then
    if digitsVal ds < 65536 then some (digitsVal ds) else none
  else none

/-- Index of the last `':'` (`str::rfind`). -/
def lastColonIdx : List Char → Option Nat
  | [] => none
  | c :: rest =>
    match lastColonIdx rest with
    | some i => some (i + 1)
    | none => if c = ':' then some 0 else none

/-- The CONNECT arm of `read_initialisation`: `rfind(':')`, `split_at`
(the second half keeps the colon), the emptiness check on that half, and
`u16::from_str` on the digits after the colon. -/
def parseConnectTarget (target : List Char) : Except Err ConnectType :=
  match lastColonIdx target with
  | none => .error .portRequired
  | some colon =>
    let hostname := target.take colon
    let port := target.drop colon
    if port.isEmpty then .error .emptyPort
    else
      match u16FromStr (port.drop 1) with
      | none => .error (.portParse (port.drop 1))
      | some p => .ok (.Http hostname p)

/-- Dispatch on the parsed method: `CONNECT` splits the target, `GET` is
answered synthetically, anything else is a protocol error. -/
def connectFromReq (method path : List Char) : Except Err ConnectType :=
  if method = "CONNECT".toList then parseConnectTarget path
  else if method = "GET".toList then .ok (.InvalidHttpGet path)
  else .error (.invalidMethod (some method))

/-- Outcome of inspecting the bytes received so far: read more, or finish
with a result. -/
inductive Decision : Type where
  | more
  | result (r : Except Err ConnectType)
deriving DecidableEq, Repr

/-- The buffer as the source passes it to httparse: `req.parse(&buf)` hands
over the whole 4096-byte array, so the bytes received so far are followed by
the buffer's zero initialisation. -/
def httpParseInput (valid : List Nat) : List Nat :=
  valid ++ List.replicate (4096 - valid.length) 0

/-- The HTTP (`'C'`/`'G'`) arm: parse the padded buffer; a partial parse
reads more, an error aborts, a complete parse dispatches on the method. -/
def httpDecision (valid : List Nat) : Decision :=
  match parseRequest (httpParseInput valid) with
  | .incomplete => .more
  | .failed e => .result (.error (.httparse e))
  | .complete method path => .result (connectFromReq method path)

/-- Index of the first NUL byte (`iter().position(|&c| c == b'\0')`). -/
def findNul : List Nat → Option Nat
  | [] => none
  | 0 :: _ => some 0
  | _ :: rest => (findNul rest).map (fun i => i + 1)

/-- `main.rs` `socks4a_marker_ip`: `0.0.0.x` with `x ≠ 0`. -/
def socks4a_marker_ip (ip : IpAddr) : Bool :=
  match ip with
  | .v4 a b c d => a = 0 && b = 0 && c = 0 && decide (d ≠ 0)
  | .v6 _ => false

/-- The SOCKS4/4a (`0x04`) arm: at least 8 header bytes, command must be
`0x01`, then the NUL-terminated USERID; a marker IP switches to the 4a
hostname form with a second NUL terminator. -/
def socksDecision (valid : List Nat) : Decision :=
  if valid.length < 8 then .more
  else if valid.getD 1 0 ≠ 1 then .result (.error (.invalidSocksCommand (valid.getD 1 0)))
  else
    match findNul (valid.drop 8) with
    | none => .more
    | some pos =>
      let userEnd := 8 + pos + 1
      let port := valid.getD 2 0 * 256 + valid.getD 3 0
      let ip := IpAddr.v4 (valid.getD 4 0) (valid.getD 5 0) (valid.getD 6 0) (valid.getD 7 0)
      if socks4a_marker_ip ip then
        match findNul (valid.drop userEnd) with
        | none => .more
        | some pos2 =>
          let hostnameBytes := (valid.drop userEnd).take pos2
          match utf8Decode hostnameBytes with
          | none => .result (.error (.invalidUtf8 hostnameBytes))
          | some hostname => .result (.ok (.Socks4Host hostname port))
      else .result (.ok (.Socks4Ip ip port))

/-- The first-byte dispatch of `read_initialisation` on the bytes received
so far. -/
def initDecision (valid : List Nat) : Decision :=
  match valid.head? with
  | none => .more
  | some b =>
    if b = 67 ∨ b = 71 then httpDecision valid
    else if b = 4 then socksDecision valid
    else .result (.error (.unrecognised valid))

/-- The read loop of `read_initialisation`.  `buf` holds the bytes received
so far (at most 4096); each chunk is one `socket.read` result, of which at
most the remaining buffer capacity is taken.  A zero-length read — end of
file, an empty chunk, or a full buffer — is the `unexpected eof reading
header` error. -/
def readInitAux (buf : List Nat) : List (List Nat) → Except Err ConnectType
  | [] => .error .unexpectedEof
  | c :: rest =>
    let taken := c.take (4096 - buf.length)
    if taken.isEmpty then .error .unexpectedEof
    else
      let valid := buf ++ taken
      match initDecision valid with
      | .result r => r
      | .more => readInitAux valid rest

/-- `main.rs` `read_initialisation`, over the list of successive
`socket.read` results. -/
def read_initialisation (chunks : List (List Nat)) : Except Err ConnectType :=
  readInitAux [] chunks

/-! ## `main.rs`: the worker dispatch

The worker obtains a `ConnectType`, resolves where needed, and either exits
before dialing (with the bytes it wrote to the client and its `Result`), or
proceeds to dial the resolved addresses with a success reply to send
afterwards.  I/O failure of the client-side writes is not modelled. -/

/-- What the worker does after parsing: finish (writing `written` and
returning `result`, no outbound connection), or dial `addrs` and reply with
`okMessage` on connect success. -/
inductive WorkerPhase : Type where
  | finish (written : List Nat) (result : Except Err Unit)
  | dial (okMessage : List Nat) (addrs : List SockAddr)
deriving DecidableEq, Repr

/-- The SOCKS success reply `\0\x5a\0\0\0\0\0\0`. -/
def socksOk : List Nat := [0, 90, 0, 0, 0, 0, 0, 0]

/-- The SOCKS rejection reply `\0\x5b\0\0\0\0\0\0`. -/
def socksReject : List Nat := [0, 91, 0, 0, 0, 0, 0, 0]

/-- The HTTP success reply. -/
def httpOk : List Nat := asciiBytes "HTTP/1.0 200 OK\r\n\r\n"

/-- The crate name served on `GET /` (`env!("CARGO_CRATE_NAME")`; the crate
manifest is outside the embedded sources, the repository name gives
`begonia_proxy`). -/
def crateName : List Nat := asciiBytes "begonia_proxy"

/-- The synthetic reply of the `InvalidHttpGet` arm. -/
def diagnosticReply (path : List Char) : List Nat :=
  if path = "/".toList then asciiBytes "HTTP/1.0 200 OK\r\n\r\n" ++ crateName
  else if path = "/healthcheck".toList then
    asciiBytes "HTTP/1.0 200 OK\r\nContent-Type: application/json\r\n\r\n" ++ asciiBytes "\x7b\"ok\":true\x7d"
  else asciiBytes "HTTP/1.0 404 NO\r\n\r\n"

/-- The dispatch of `worker` on the parsed request.  `resolver h p` stands
for `resolve::resolve(resolve_ctx, &h, p)`.  `Http` propagates a resolver
error; `Socks4Host` swallows it, writes the rejection reply and returns
`Ok(())`; `Socks4Ip` skips resolution; `InvalidHttpGet` answers inline. -/
def workerDispatch (init : ConnectType)
    (resolver : List Char → Nat → Except Err (List SockAddr)) : WorkerPhase :=
  match init with
  | .Http hostname port =>
    match resolver hostname port with
    | .ok addrs => .dial httpOk addrs
    | .error e => .finish [] (.error e)
  | .Socks4Host hostname port =>
    match resolver hostname port with
    | .ok addrs => .dial socksOk addrs
    | .error _ => .finish socksReject (.ok ())
  | .Socks4Ip ip port => .dial socksOk [(ip, port)]
  | .InvalidHttpGet path => .finish (diagnosticReply path) (.ok ())

/-! ## Concrete inputs used by the claim theorems -/

/-- One subset, one port (80), one unparseable address literal. -/
def c1CexEndpoints : Endpoints :=
  ⟨some [⟨some [⟨"bogus".toList⟩], some [⟨80⟩]⟩]⟩

/-- One subset, one port (80), two addresses. -/
def c1WitnessEndpoints : Endpoints :=
  ⟨some [⟨some [⟨"10.1.1.1".toList⟩, ⟨"10.1.1.2".toList⟩], some [⟨80⟩]⟩]⟩

/-- One subset, an empty port list, one unparseable address literal. -/
def c2CexEndpoints : Endpoints :=
  ⟨some [⟨some [⟨"bogus".toList⟩], some []⟩]⟩

/-- One subset, two distinct ports, one address. -/
def c2WitnessEndpoints : Endpoints :=
  ⟨some [⟨some [⟨"10.1.1.1".toList⟩], some [⟨80⟩, ⟨443⟩]⟩]⟩

/-- One port-53 subset listing the same address twice. -/
def c4CexEndpoints : Endpoints :=
  ⟨some [⟨some [⟨"10.0.0.1".toList⟩, ⟨"10.0.0.1".toList⟩], some [⟨53⟩]⟩]⟩

/-- Two port-53 subsets listing the same address. -/
def c4WitnessEndpoints : Endpoints :=
  ⟨some [⟨some [⟨"10.0.0.2".toList⟩], some [⟨53⟩]⟩,
         ⟨some [⟨"10.0.0.2".toList⟩], some [⟨53⟩]⟩]⟩

/-- The data-model invariant on `ConnectRequest` claimed by the spec:
non-zero port, and a non-empty hostname for the `Http` and `Socks4Host`
variants. -/
def reqInvariant : ConnectType → Bool
  | .Http h p => decide (p ≠ 0) && decide (h ≠ [])
  | .Socks4Host h p => decide (p ≠ 0) && decide (h ≠ [])
  | .Socks4Ip _ p => decide (p ≠ 0)
  | .InvalidHttpGet _ => true

/-- Ports of parsed requests fit in `u16`. -/
def portBounded : ConnectType → Prop
  | .Http _ p => p < 65536
  | .Socks4Ip _ p => p < 65536
  | .Socks4Host _ p => p < 65536
  | .InvalidHttpGet _ => True

/-- A CONNECT handshake with port 0 and an empty hostname. -/
def c5CexMsg : List Nat := asciiBytes "CONNECT :0 HTTP/1.1\r\n\r\n"

/-- A complete CONNECT handshake. -/
def c10Full : List Nat := asciiBytes "CONNECT example.com:443 HTTP/1.1\r\n\r\n"

/-- The first 11 bytes of `c10Full`: a read boundary inside the target. -/
def c10ChunkA : List Nat := asciiBytes "CONNECT exa"

/-- The rest of `c10Full`. -/
def c10ChunkB : List Nat := asciiBytes "mple.com:443 HTTP/1.1\r\n\r\n"

/-- The `ResolveCtx` as `main` wires it (the DNS server list comes from
bootstrap; an empty one serves for examples). -/
def mainCtx (dns_servers : List IpAddr) : ResolveCtx :=
  ⟨"cluster.local".toList, "default".toList, dns_servers⟩

/-! ## Helper lemmas -/

theorem u16FromStr_lt {s : List Char} {p : Nat} (h : u16FromStr s = some p) : p < 65536 := by
  unfold u16FromStr at h
  dsimp only at h
  split_ifs at h with h1 h2 h3
  injection h with h
  omega

theorem mapMOption_append (f : α → Option β) (xs ys : List α) :
    mapMOption f (xs ++ ys) = (mapMOption f xs).bind (fun l => (mapMOption f ys).map (fun r => l ++ r)) := by
  induction xs with
  | nil => simp [mapMOption]
  | cons a rest ih =>
    simp only [List.cons_append, mapMOption, List.append_eq, ih]
    cases f a with
    | none => rfl
    | some b =>
      cases mapMOption f rest with
      | none => rfl
      | some l =>
        cases mapMOption f ys with
        | none => rfl
        | some r => rfl

theorem parseAddrs_of_mapM {as : List EndpointAddress} {l : List IpAddr}
    (h : mapMOption ipFromStr (as.map EndpointAddress.ip) = some l) :
    parseAddrs as = .ok l := by
  induction as generalizing l with
  | nil => simp [mapMOption] at h; simp [parseAddrs, h]
  | cons a rest ih =>
    simp only [List.map_cons, mapMOption] at h
    cases hip : ipFromStr a.ip with
    | none => rw [hip] at h; cases h
    | some ip =>
      rw [hip] at h
      rcases Option.map_eq_some'.mp h with ⟨bs, hbs, hl⟩
      simp [parseAddrs, hip, ih hbs, ← hl]

theorem parseIps_of_mapM {ls : List (List Char)} {l : List IpAddr}
    (h : mapMOption ipFromStr ls = some l) :
    parseIps ls = .ok l := by
  induction ls generalizing l with
  | nil => simp [mapMOption] at h; simp [parseIps, h]
  | cons s rest ih =>
    simp only [mapMOption] at h
    cases hip : ipFromStr s with
    | none => rw [hip] at h; cases h
    | some ip =>
      rw [hip] at h
      rcases Option.map_eq_some'.mp h with ⟨bs, hbs, hl⟩
      simp [parseIps, hip, ih hbs, ← hl]

theorem addrStringsOf_cons (s : EndpointSubset) (rest : List EndpointSubset) :
    addrStringsOf (s :: rest) = (subsetAddrs s).map EndpointAddress.ip ++ addrStringsOf rest := by
  simp [addrStringsOf]

theorem collectSubsets_of_mapM : ∀ (ss : List EndpointSubset) (acc : List Int) {ips : List IpAddr},
    mapMOption ipFromStr (addrStringsOf ss) = some ips →
    collectSubsets acc ss = .ok (distinctPortsAux acc ss, ips) := by
  intro ss
  induction ss with
  | nil =>
    intro acc ips h
    simp [addrStringsOf, mapMOption] at h
    simp [collectSubsets, distinctPortsAux, ← h]
  | cons s rest ih =>
    intro acc ips h
    rw [addrStringsOf_cons, mapMOption_append] at h
    rcases Option.bind_eq_some.mp h with ⟨l, hl, hr⟩
    rcases Option.map_eq_some'.mp hr with ⟨r, hr2, hips⟩
    simp only [collectSubsets, parseAddrs_of_mapM hl, ih (insertSubsetPorts acc s) hr2,
      distinctPortsAux, ← hips]

theorem collectSubsets_ports : ∀ (ss : List EndpointSubset) (acc : List Int)
    {pr : List Int} {ips : List IpAddr},
    collectSubsets acc ss = .ok (pr, ips) → pr = distinctPortsAux acc ss := by
  intro ss
  induction ss with
  | nil =>
    intro acc pr ips h
    simp [collectSubsets] at h
    simp [distinctPortsAux, h.1]
  | cons s rest ih =>
    intro acc pr ips h
    simp only [collectSubsets] at h
    cases hp : parseAddrs (subsetAddrs s) with
    | error e => rw [hp] at h; cases h
    | ok l =>
      rw [hp] at h
      cases hc : collectSubsets (insertSubsetPorts acc s) rest with
      | error e => rw [hc] at h; cases h
      | ok pair =>
        rw [hc] at h
        cases pair with
        | mk pr' ipsRest =>
          simp only [Except.ok.injEq, Prod.mk.injEq] at h
          rw [distinctPortsAux, ← h.1]
          exact ih (insertSubsetPorts acc s) hc

/-! ## Claim theorems -/

/-- C1, counterexample to the claim as stated: the fetched object has a
non-empty address list and exactly one distinct port (80, which fits in
`u16`), yet the resolver returns no `(IP, port)` pairs at all — the
unparseable literal aborts it with the `parsing "bogus"` error before the
port policy runs. -/
theorem endpointsResolve_single_port_parse_failure :
    distinctPorts c1CexEndpoints = [80] ∧
    addrStrings c1CexEndpoints = ["bogus".toList] ∧
    endpointsResolve c1CexEndpoints 443 = .error (.parseIp "bogus".toList) := by
  decide

/-- C1 (amended with the proviso that every address literal parses): when
the fetched object has exactly one distinct port `P` across subsets, `P`
fits in `u16`, and its address literals all parse — to the non-empty list
`ips`, in subset-then-address order — the resolver returns exactly one
`(IP, port)` pair per address, in that order, every pair carrying `P`; the
client-supplied port is ignored. -/
theorem endpointsResolve_single_port (eps : Endpoints) (P : Int) (ips : List IpAddr)
    (specified : Nat)
    (hports : distinctPorts eps = [P])
    (hfits : 0 ≤ P ∧ P < 65536)
    (hparse : mapMOption ipFromStr (addrStrings eps) = some ips)
    (hne : ips ≠ []) :
    endpointsResolve eps specified = .ok (ips.map (fun ip => (ip, P.toNat))) := by
  unfold endpointsResolve
  rw [collectSubsets_of_mapM _ [] hparse]
  rw [show distinctPortsAux [] (eps.subsets.getD []) = distinctPorts eps from rfl, hports]
  simp [choosePort, u16TryFromInt, hfits.1, hfits.2, List.isEmpty_iff, hne]

/-- Witness for the amended C1, at a two-address, one-port object. -/
theorem endpointsResolve_single_port_example :
    endpointsResolve c1WitnessEndpoints 8080
      = .ok [(.v4 10 1 1 1, 80), (.v4 10 1 1 2, 80)] :=
  endpointsResolve_single_port c1WitnessEndpoints 80 [.v4 10 1 1 1, .v4 10 1 1 2] 8080
    (by decide) (by decide) (by decide) (by decide)

/-- C2, counterexample to the claim as stated: the port set is empty, so
the claim requires an empty result without error, but the unparseable
address literal makes the resolver fail — the literals are parsed before
the emptiness check. -/
theorem endpointsResolve_empty_ports_parse_failure :
    distinctPorts c2CexEndpoints = [] ∧
    endpointsResolve c2CexEndpoints 443 = .error (.parseIp "bogus".toList) := by
  decide

/-- C2 (amended): with two or more distinct ports, every returned pair
carries the caller-supplied fallback port; the resolver returns an empty
list without error when the address list is empty, or when the port set is
empty and every address literal parses. -/
theorem endpointsResolve_fallback_port (eps : Endpoints) (specified : Nat) :
    (∀ res, 2 ≤ (distinctPorts eps).length → endpointsResolve eps specified = .ok res →
      ∀ sa ∈ res, sa.2 = specified) ∧
    (addrStrings eps = [] → endpointsResolve eps specified = .ok []) ∧
    (∀ ips, distinctPorts eps = [] → mapMOption ipFromStr (addrStrings eps) = some ips →
      endpointsResolve eps specified = .ok []) := by
  refine ⟨?_, ?_, ?_⟩
  · intro res h2 hok sa hmem
    unfold endpointsResolve at hok
    cases hc : collectSubsets [] (eps.subsets.getD []) with
    | error e => rw [hc] at hok; cases hok
    | ok pair =>
      rw [hc] at hok
      cases pair with
      | mk pr ips =>
        dsimp only at hok
        have hpr : pr = distinctPorts eps := collectSubsets_ports _ [] hc
        by_cases hemp : (pr.isEmpty || ips.isEmpty) = true
        · rw [if_pos hemp] at hok
          injection hok with hok
          rw [← hok] at hmem
          cases hmem
        · rw [if_neg hemp] at hok
          have hlen : ¬ pr.length = 1 := by
            rw [hpr]
            omega
          simp only [choosePort, if_neg hlen] at hok
          injection hok with hok
          rw [← hok] at hmem
          rcases List.mem_map.mp hmem with ⟨ip, _, hsa⟩
          rw [← hsa]
  · intro h0
    have hm : mapMOption ipFromStr (addrStrings eps) = some [] := by
      rw [h0]; rfl
    unfold endpointsResolve
    rw [collectSubsets_of_mapM _ [] hm]
    simp
  · intro ips h0 hm
    unfold endpointsResolve
    rw [collectSubsets_of_mapM _ [] hm]
    rw [show distinctPortsAux [] (eps.subsets.getD []) = distinctPorts eps from rfl, h0]
    simp

/-- Witness for the amended C2, at a two-port object with fallback port 7. -/
theorem endpointsResolve_fallback_port_example :
    ((IpAddr.v4 10 1 1 1, 7) : SockAddr).2 = 7 :=
  (endpointsResolve_fallback_port c2WitnessEndpoints 7).1 [(.v4 10 1 1 1, 7)]
    (by decide) (by decide) (.v4 10 1 1 1, 7) (by decide)

/-- C3, counterexample to the claim as stated: on a `kube-dns` `Endpoints`
object with a missing `subsets` field, `find_dns` does not succeed with an
empty list. -/
theorem find_dns_missing_subsets_not_ok :
    find_dns ⟨none⟩ ≠ .ok [] := by decide

/-- C3 (amended): on a missing `subsets` field, the DNS discovery step
fails with the `no kube-dns endpoints at all` error, so startup aborts
instead of proceeding with an empty DNS server list. -/
theorem find_dns_missing_subsets_error :
    find_dns ⟨none⟩ = .error .noEndpoints := by decide

/-- C4, counterexample to the claim as stated: a port-53 subset listing the
same IP twice yields that IP twice in the returned list — no
deduplication. -/
theorem find_dns_duplicates_kept :
    find_dns c4CexEndpoints = .ok [.v4 10 0 0 1, .v4 10 0 0 1] ∧
    [IpAddr.v4 10 0 0 1, .v4 10 0 0 1].count (.v4 10 0 0 1) = 2 := by
  decide

/-- C4 (amended): the DNS server list is exactly the in-order parse of the
address literals of the port-53 subsets, one entry per occurrence — arrival
order is preserved and duplicates are kept. -/
theorem find_dns_no_dedup (eps : Endpoints) (ss : List EndpointSubset) (ips : List IpAddr)
    (hs : eps.subsets = some ss)
    (hparse : mapMOption ipFromStr (dnsAddrStrings ss) = some ips) :
    find_dns eps = .ok ips := by
  unfold find_dns
  rw [hs]
  exact parseIps_of_mapM hparse

/-- Witness for the amended C4, at two port-53 subsets sharing an address. -/
theorem find_dns_no_dedup_example :
    find_dns c4WitnessEndpoints = .ok [.v4 10 0 0 2, .v4 10 0 0 2] :=
  find_dns_no_dedup c4WitnessEndpoints
    [⟨some [⟨"10.0.0.2".toList⟩], some [⟨53⟩]⟩, ⟨some [⟨"10.0.0.2".toList⟩], some [⟨53⟩]⟩]
    [.v4 10 0 0 2, .v4 10 0 0 2] rfl (by decide)

theorem parseConnectTarget_ok_port {t : List Char} {r : ConnectType}
    (h : parseConnectTarget t = .ok r) : portBounded r := by
  unfold parseConnectTarget at h
  cases hi : lastColonIdx t with
  | none => rw [hi] at h; cases h
  | some colon =>
    rw [hi] at h
    dsimp only at h
    by_cases he : (t.drop colon).isEmpty = true
    · rw [if_pos he] at h; cases h
    · rw [if_neg he] at h
      cases hu : u16FromStr ((t.drop colon).drop 1) with
      | none => rw [hu] at h; cases h
      | some p =>
        rw [hu] at h
        injection h with h
        rw [← h]
        exact u16FromStr_lt hu

theorem connectFromReq_ok_port {m path : List Char} {r : ConnectType}
    (h : connectFromReq m path = .ok r) : portBounded r := by
  unfold connectFromReq at h
  split_ifs at h
  · exact parseConnectTarget_ok_port h
  · injection h with h
    rw [← h]
    trivial

theorem httpDecision_ok_port {v : List Nat} {r : ConnectType}
    (h : httpDecision v = .result (.ok r)) : portBounded r := by
  unfold httpDecision at h
  cases hp : parseRequest (httpParseInput v) with
  | incomplete => rw [hp] at h; cases h
  | failed e => rw [hp] at h; cases h
  | complete m path =>
    rw [hp] at h
    injection h with h
    exact connectFromReq_ok_port h

theorem getD_lt_256 : ∀ (l : List Nat) (n : Nat), (∀ b ∈ l, b < 256) → n < l.length →
    l.getD n 0 < 256 := by
  intro l
  induction l with
  | nil => intro n _ hn; cases hn
  | cons a rest ih =>
    intro n hwf hn
    cases n with
    | zero => simpa [List.getD] using hwf a (by simp)
    | succ m =>
      rw [List.getD_cons_succ]
      exact ih m (fun b hb => hwf b (by simp [hb])) (by simpa using hn)

theorem socksDecision_ok_port {v : List Nat} {r : ConnectType}
    (hwf : ∀ b ∈ v, b < 256)
    (h : socksDecision v = .result (.ok r)) : portBounded r := by
  unfold socksDecision at h
  by_cases hlen : v.length < 8
  · rw [if_pos hlen] at h; cases h
  · rw [if_neg hlen] at h
    have hport : v.getD 2 0 * 256 + v.getD 3 0 < 65536 := by
      have h2 : v.getD 2 0 < 256 := getD_lt_256 v 2 hwf (by omega)
      have h3 : v.getD 3 0 < 256 := getD_lt_256 v 3 hwf (by omega)
      omega
    by_cases hcmd : v.getD 1 0 ≠ 1
    · rw [if_pos hcmd] at h; cases h
    · rw [if_neg hcmd] at h
      cases hn : findNul (v.drop 8) with
      | none => rw [hn] at h; cases h
      | some pos =>
        rw [hn] at h
        dsimp only at h
        by_cases hm : socks4a_marker_ip
            (.v4 (v.getD 4 0) (v.getD 5 0) (v.getD 6 0) (v.getD 7 0)) = true
        · rw [if_pos hm] at h
          cases hn2 : findNul (v.drop (8 + pos + 1)) with
          | none => rw [hn2] at h; cases h
          | some pos2 =>
            rw [hn2] at h
            dsimp only at h
            cases hu : utf8Decode ((v.drop (8 + pos + 1)).take pos2) with
            | none => rw [hu] at h; cases h
            | some hostname =>
              rw [hu] at h
              injection h with h
              injection h with h
              rw [← h]
              exact hport
        · rw [if_neg hm] at h
          injection h with h
          injection h with h
          rw [← h]
          exact hport

theorem initDecision_ok_port {v : List Nat} {r : ConnectType}
    (hwf : ∀ b ∈ v, b < 256)
    (h : initDecision v = .result (.ok r)) : portBounded r := by
  unfold initDecision at h
  cases hh : v.head? with
  | none => rw [hh] at h; cases h
  | some b =>
    rw [hh] at h
    dsimp only at h
    split_ifs at h
    · exact httpDecision_ok_port h
    · exact socksDecision_ok_port hwf h
    · cases h

theorem readInitAux_ok_port : ∀ (chunks : List (List Nat)) (buf : List Nat) {r : ConnectType},
    (∀ b ∈ buf, b < 256) → (∀ c ∈ chunks, ∀ b ∈ c, b < 256) →
    readInitAux buf chunks = .ok r → portBounded r := by
  intro chunks
  induction chunks with
  | nil => intro buf r _ _ h; cases h
  | cons c rest ih =>
    intro buf r hbuf hwf h
    unfold readInitAux at h
    dsimp only at h
    by_cases ht : (c.take (4096 - buf.length)).isEmpty = true
    · rw [if_pos ht] at h; cases h
    · rw [if_neg ht] at h
      have hvalid : ∀ b ∈ buf ++ c.take (4096 - buf.length), b < 256 := by
        intro b hb
        rcases List.mem_append.mp hb with hb | hb
        · exact hbuf b hb
        · exact hwf c (by simp) b (List.take_subset _ _ hb)
      cases hd : initDecision (buf ++ c.take (4096 - buf.length)) with
      | result r0 =>
        rw [hd] at h
        dsimp only at h
        rw [h] at hd
        exact initDecision_ok_port hvalid hd
      | more =>
        rw [hd] at h
        exact ih _ hvalid (fun c' hc' => hwf c' (by simp [hc'])) h

/-- C5, counterexample to the claim as stated: the wire parser accepts
`CONNECT :0 HTTP/1.1` and produces `Http` with port 0 and an empty
hostname, violating both halves of the data-model invariant. -/
theorem read_initialisation_port_zero :
    read_initialisation [c5CexMsg] = .ok (.Http [] 0) ∧
    reqInvariant (.Http [] 0) = false := by
  decide

/-- C5 (amended): every `ConnectRequest` the wire parser produces from a
byte stream has a port below 2^16 (the `u16` range); the parser does not
reject port 0 or empty hostnames. -/
theorem read_initialisation_port_bounded (chunks : List (List Nat)) (r : ConnectType)
    (hwf : ∀ c ∈ chunks, ∀ b ∈ c, b < 256)
    (h : read_initialisation chunks = .ok r) : portBounded r :=
  readInitAux_ok_port chunks [] (by intro b hb; cases hb) hwf h

/-- Witness for the amended C5, at a one-chunk SOCKS4 handshake. -/
theorem read_initialisation_port_bounded_example :
    portBounded (.Socks4Ip (.v4 93 184 216 34) 443) :=
  read_initialisation_port_bounded [[4, 1, 1, 187, 93, 184, 216, 34, 0]]
    (.Socks4Ip (.v4 93 184 216 34) 443) (by decide) (by decide)

/-- C6: a hostname matching the virtual-TLD pattern with kind `pod` or
`pod-by-name` makes resolution fail with the `not implemented` outcome (the
`unimplemented!` panic): no Endpoints fetch, no DNS fallthrough, no
addresses. -/
theorem resolve_pod_not_implemented (ctx : ResolveCtx)
    (fetch : List Char → List Char → Except Err Endpoints)
    (dns : List Char → Except Err (List IpAddr))
    (hostname name : List Char) (nsOpt : Option (List Char)) (kind : List Char)
    (port : Nat)
    (hmatch : matchVirtualTld hostname = some (name, nsOpt, kind))
    (hkind : kind = "pod".toList ∨ kind = "pod-by-name".toList) :
    resolve ctx fetch dns hostname port = .error (.notImplemented kind) := by
  unfold resolve
  rw [hmatch]
  dsimp only
  have hne : ¬ (kind = "endpoints".toList) := by
    rcases hkind with h | h <;> subst h <;> decide
  rw [if_neg hne]

/-- Witness for C6, at `web.pod.local`. -/
theorem resolve_pod_not_implemented_example :
    resolve (mainCtx []) (fun _ _ => .ok ⟨none⟩) (fun _ => .ok [])
      "web.pod.local".toList 443 = .error (.notImplemented "pod".toList) :=
  resolve_pod_not_implemented (mainCtx []) (fun _ _ => .ok ⟨none⟩) (fun _ => .ok [])
    "web.pod.local".toList "web".toList none "pod".toList 443 (by decide) (Or.inl rfl)

/-- C7: on a resolver error, a `Socks4Host` worker writes exactly the eight
bytes `00 5B 00 00 00 00 00 00` and finishes with `Ok(())` without dialing,
while an `Http` worker finishes with that error having written nothing. -/
theorem workerDispatch_resolver_error (hostname : List Char) (port : Nat)
    (resolver : List Char → Nat → Except Err (List SockAddr)) (e : Err)
    (h : resolver hostname port = .error e) :
    workerDispatch (.Socks4Host hostname port) resolver = .finish socksReject (.ok ()) ∧
    socksReject = [0, 91, 0, 0, 0, 0, 0, 0] ∧ socksReject.length = 8 ∧
    workerDispatch (.Http hostname port) resolver = .finish [] (.error e) := by
  refine ⟨?_, by decide, by decide, ?_⟩ <;> simp [workerDispatch, h]

/-- Witness for C7, at a resolver that always fails. -/
theorem workerDispatch_resolver_error_example :
    workerDispatch (.Socks4Host "x".toList 443) (fun _ _ => .error .noEndpoints)
        = .finish socksReject (.ok ()) ∧
    socksReject = [0, 91, 0, 0, 0, 0, 0, 0] ∧ socksReject.length = 8 ∧
    workerDispatch (.Http "x".toList 443) (fun _ _ => .error .noEndpoints)
        = .finish [] (.error .noEndpoints) :=
  workerDispatch_resolver_error "x".toList 443 (fun _ _ => .error .noEndpoints) .noEndpoints rfl

theorem lastColonIdx_eq_none {t : List Char} (h : ':' ∉ t) : lastColonIdx t = none := by
  induction t with
  | nil => rfl
  | cons c rest ih =>
    simp only [List.mem_cons, not_or] at h
    have hc : ¬ (c = ':') := fun hc => h.1 hc.symm
    simp [lastColonIdx, ih h.2, hc]

theorem lastColonIdx_append {pre post : List Char} (h : ':' ∉ post) :
    lastColonIdx (pre ++ ':' :: post) = some pre.length := by
  induction pre with
  | nil => simp [lastColonIdx, lastColonIdx_eq_none h]
  | cons c rest ih => simp [lastColonIdx, ih]

/-- C8: a CONNECT target is split at its last colon; the parse fails
exactly when there is no colon or when the segment after the last colon
(empty included) does not parse as a `u16`, and otherwise yields `Http`
whose hostname is everything before the last colon. -/
theorem parseConnectTarget_last_colon (target : List Char) :
    (':' ∉ target → parseConnectTarget target = .error .portRequired) ∧
    (∀ pre post, target = pre ++ ':' :: post → ':' ∉ post →
      (u16FromStr post = none → parseConnectTarget target = .error (.portParse post)) ∧
      (∀ p, u16FromStr post = some p → parseConnectTarget target = .ok (.Http pre p))) := by
  constructor
  · intro h
    unfold parseConnectTarget
    rw [lastColonIdx_eq_none h]
  · intro pre post ht hpost
    subst ht
    unfold parseConnectTarget
    rw [lastColonIdx_append hpost]
    dsimp only
    rw [List.take_left, List.drop_left]
    constructor
    · intro hu
      simp [hu]
    · intro p hu
      simp [hu]

/-- Witness for C8, at the target `example.com:443`. -/
theorem parseConnectTarget_last_colon_example :
    parseConnectTarget "example.com:443".toList = .ok (.Http "example.com".toList 443) :=
  ((parseConnectTarget_last_colon "example.com:443".toList).2 "example.com".toList
    "443".toList (by decide) (by decide)).2 443 (by decide)

theorem addServer_foldl (ctx : ResolveCtx) : ∀ (ips : List IpAddr) (cfg : ResolverConfig),
    (ips.foldl (addServer ctx) cfg).name_servers
      = cfg.name_servers ++ ips.map (fun ip => ⟨.udp, (ip, 53), true⟩) ∧
    (ips.foldl (addServer ctx) cfg).search
      = cfg.search ++ ips.flatMap (fun _ => [searchName1 ctx, searchName2 ctx, searchName3 ctx]) := by
  intro ips
  induction ips with
  | nil => intro cfg; simp
  | cons ip rest ih =>
    intro cfg
    rcases ih (addServer ctx cfg ip) with ⟨h1, h2⟩
    rw [List.foldl_cons]
    constructor
    · rw [h1]
      simp [addServer]
    · rw [h2]
      simp [addServer]

theorem length_flatMap_three (l : List IpAddr) (a b c : List Char) :
    (l.flatMap (fun _ => [a, b, c])).length = 3 * l.length := by
  induction l with
  | nil => simp
  | cons x rest ih => simp [ih]; omega

/-- C9: the stub-resolver configuration holds one UDP nameserver on port 53
per discovered DNS server, with negative-response trust, and the three
search names are appended once per upstream server in the documented order,
so the search list has `3 * N` entries. -/
theorem kubeDnsResolverConfig_spec (ctx : ResolveCtx) :
    (kubeDnsResolverConfig ctx).name_servers
      = ctx.dns_servers.map (fun ip => ⟨.udp, (ip, 53), true⟩) ∧
    (kubeDnsResolverConfig ctx).search
      = ctx.dns_servers.flatMap (fun _ => [searchName1 ctx, searchName2 ctx, searchName3 ctx]) ∧
    (kubeDnsResolverConfig ctx).search.length = 3 * ctx.dns_servers.length := by
  have h := addServer_foldl ctx ctx.dns_servers ⟨[], []⟩
  unfold kubeDnsResolverConfig
  refine ⟨?_, ?_, ?_⟩
  · rw [h.1]; rfl
  · rw [h.2]; rfl
  · rw [h.2]
    simpa using length_flatMap_three ctx.dns_servers _ _ _

/-- C10: `read_initialisation` hands httparse the whole 4096-byte buffer.
For the CONNECT handshake split after `CONNECT exa`, the first parse
attempt sees the 11 received bytes followed by 4085 zero bytes and reports
an error at the first NUL instead of a partial parse, so the split
handshake fails, while the same bytes in a single read succeed. -/
theorem httpDecision_whole_buffer :
    read_initialisation [c10Full] = .ok (.Http "example.com".toList 443) ∧
    c10ChunkA ++ c10ChunkB = c10Full ∧
    httpParseInput c10ChunkA = c10ChunkA ++ List.replicate 4085 0 ∧
    parseRequest c10ChunkA = .incomplete ∧
    parseRequest (httpParseInput c10ChunkA) = .failed .token ∧
    read_initialisation [c10ChunkA, c10ChunkB] = .error (.httparse .token) := by
  refine ⟨by decide, by decide, rfl, by decide, by decide, by decide⟩
